import Mathlib

/-!
Verification of the PostCSS transformer
(`packages/transformers/postcss/src/PostCSSTransformer.js`).

The development shallowly embeds the transformer's `transform`, `parse`,
`canReuseAST`, `generateScopedName` and `ParcelFileSystemLoader.fetch`
logic.  External npm libraries (postcss, postcss-value-parser, semver's
general range language, css-modules-loader-core, Node's `path`, the
pipeline's resolver and filesystem) are modelled as parameters or as
minimal faithful models of the exact call made by the source; the two
regular expressions `COMPOSES_RE` and `FROM_IMPORT_RE` are modelled with
their full JavaScript backtracking semantics, specialised to these two
concrete patterns.
-/

/-- A character that JavaScript `.` (without the `s` flag) matches:
anything but a line terminator (LF, CR, U+2028, U+2029). -/
def dotChar (c : Char) : Bool :=
  !(c = '\n' || c = '\r' || c = Char.ofNat 0x2028 || c = Char.ofNat 0x2029)

/-- JavaScript `\s` (WhiteSpace or LineTerminator). -/
def jsSpace (c : Char) : Bool :=
  c = ' ' || c = '\t' || c = '\n' || c = '\r' || c = '\x0b' || c = '\x0c' ||
  c = Char.ofNat 0xa0 || c = Char.ofNat 0x1680 ||
  (Char.ofNat 0x2000 ≤ c && c ≤ Char.ofNat 0x200a) ||
  c = Char.ofNat 0x2028 || c = Char.ofNat 0x2029 ||
  c = Char.ofNat 0x202f || c = Char.ofNat 0x205f ||
  c = Char.ofNat 0x3000 || c = Char.ofNat 0xfeff

/-- The two quote characters of the character class `("|')`. -/
def isQuote (c : Char) : Bool :=
  c = '"' || c = Char.ofNat 39

/-- Backtracking for `(.*)("|')`: `(.*)` is greedy, so the capture runs to
the last quote reachable through non-line-terminator characters.  Returns
the captured characters, `none` when no closing quote is reachable. -/
def lastQuoteSplit : List Char → Option (List Char)
  | [] => none
  | c :: rest =>
    if dotChar c then
      match lastQuoteSplit rest with
      | some cap => some (c :: cap)
      | none => if isQuote c then some [] else none
    else none

/-- Match `\s*("|')(.*)("|')` at the head of `u`, returning the capture of
`(.*)`.  `\s*` is greedy, and since no whitespace character is a quote,
only its maximal run can be followed by the opening quote. -/
def matchAfterFrom (u : List Char) : Option (List Char) :=
  match u.dropWhile jsSpace with
  | [] => none
  | c :: rest => if isQuote c then lastQuoteSplit rest else none

/-- Backtracking for the greedy `.+` before `from`: try consuming
`n, n-1, ..., 1` characters, accepting the first length whose remainder
matches `from\s*("|')(.*)("|')`. -/
def tryFromAt (v : List Char) : Nat → Option (List Char)
  | 0 => none
  | n + 1 =>
    let w := v.drop (n + 1)
    if ['f', 'r', 'o', 'm'].isPrefixOf w then
      match matchAfterFrom (w.drop 4) with
      | some cap => some cap
      | none => tryFromAt v n
    else tryFromAt v n

/-- Length of the maximal run of non-line-terminator characters. -/
def dotRunLen (l : List Char) : Nat := (l.takeWhile dotChar).length

/-- Match `.+from\s*("|')(.*)("|')` anchored at the head of `v`,
returning the capture of `(.*)`. -/
def matchAtStart (v : List Char) : Option (List Char) :=
  tryFromAt v (dotRunLen v)

/-- Leftmost-match search for `FROM_IMPORT_RE`: try every start position
from the left, with full backtracking at each. -/
def execFromAux : List Char → Option (List Char)
  | [] => none
  | c :: rest =>
    match matchAtStart (c :: rest) with
    | some cap => some cap
    | none => execFromAux rest

/-- `FROM_IMPORT_RE.exec(s)` from the source
(the pattern `.+from`, `\s*`, a quote, the capture `(.*)`, a quote,
`\s*;?`): the capture of group 1, or `none` when the value does not
match.  The trailing `\s*;?` never constrains a match (both parts may
match the empty string at any position), so it does not affect the
capture. -/
def fromImportExec (s : String) : Option String :=
  (execFromAux s.data).map fun l => ⟨l⟩

/-- One anchored attempt of `COMPOSES_RE`: the literal `composes:`
followed by a match of the `.+from`-quote-`.*`-quote pattern. -/
def composesAt (v : List Char) : Bool :=
  ['c', 'o', 'm', 'p', 'o', 's', 'e', 's', ':'].isPrefixOf v &&
    (matchAtStart (v.drop 9)).isSome

/-- Search every start position for `COMPOSES_RE`. -/
def composesTestAux : List Char → Bool
  | [] => false
  | c :: rest => composesAt (c :: rest) || composesTestAux rest

/-- `COMPOSES_RE.test(code)` from the source. -/
def composesTest (s : String) : Bool :=
  composesTestAux s.data

example : fromImportExec "foo from './a.css'" = some "./a.css" := by decide
example : fromImportExec "bar" = none := by decide
example : fromImportExec "a from 'b' from 'c'" = some "c" := by decide
example : composesTest "composes: foo from './a.css';" = true := by decide
example : composesTest "composes: bar;" = false := by decide
example : composesTest "color: red" = false := by decide

/-- A line/column position, as postcss reports `decl.source.start`. -/
structure Pos where
  line : Nat
  column : Nat
deriving DecidableEq

/-- The `loc` object passed to `asset.addDependency`. -/
structure Loc where
  filePath : String
  start : Pos
  endPos : Pos
deriving DecidableEq

/-- A dependency record on the asset (`moduleSpecifier`, `loc`, and the
`isURL` flag consulted by the companion-asset filter). -/
structure Dependency where
  moduleSpecifier : String
  loc : Loc
  isURL : Bool := false
deriving DecidableEq

/-- A postcss declaration node as the walk observes it: property, the raw
text between property and value (`": "` in `composes: foo`), the value,
and `source.start`.  In the file's text the declaration reads
`prop ++ between ++ value` starting at `sourceStart`. -/
structure Decl where
  prop : String
  between : String
  value : String
  sourceStart : Pos
deriving DecidableEq

/-- The tree as the declaration walk sees it: `walkDecls` visits every
declaration node in order. -/
abbrev Program := List Decl

/-- A node visited by `postcss-value-parser`'s `walk`; only its `type`
matters to the source. -/
structure VNode where
  type : String
deriving DecidableEq

/-- The tagged AST value (`type`, `version`, `program`). -/
structure AST where
  type : String
  version : String
  program : Program
deriving DecidableEq

/-- A CSS-Modules export-token map as an insertion-ordered object. -/
abbrev TokenMap := List (String × String)

/-- A pipeline message from `postcss().process`. -/
structure Msg where
  type : String
  file : String
deriving DecidableEq

/-- The observable outcome of `postcss(plugins).process`: the messages,
the new root, and the value (if any) the injected postcss-modules
plugin's `getJSON` callback stored into `asset.meta.cssModules`. -/
structure ProcessOut where
  messages : List Msg
  root : Program
  cssModulesSet : Option TokenMap
deriving DecidableEq

/-- The hydrated config; only its presence matters to the modelled
control flow. -/
structure Config where
  modules : Bool := false
deriving DecidableEq

/-- The asset's observable state entering `transform`. -/
structure AssetIn where
  filePath : String
  code : String
  astDirty : Bool
  ast : Option AST
  meta : Option TokenMap
  deps : List Dependency
deriving DecidableEq

/-- The asset mutations `transform` performs: dependencies after the run,
included files registered, the log of `setAST` calls, and
`meta.cssModules` after the run. -/
structure AssetOut where
  deps : List Dependency
  includedFiles : List String
  astSets : List AST
  meta : Option TokenMap
deriving DecidableEq

/-- An element of the list `transform` returns: the original mutable
asset, or a fresh `{type, filePath, content}` object. -/
inductive TransformResult where
  | originalAsset : TransformResult
  | newAsset : (type : String) → (filePath : String) → (content : String) → TransformResult
deriving DecidableEq

/-- Split a character list at every dot. -/
def splitOnDot : List Char → List (List Char)
  | [] => [[]]
  | c :: rest =>
    let r := splitOnDot rest
    if c = '.' then [] :: r
    else
      match r with
      | h :: t => (c :: h) :: t
      | [] => [[c]]

/-- Read a nonempty all-digit segment as a number. -/
def parseNatSeg (l : List Char) : Option Nat :=
  if l.isEmpty || !(l.all Char.isDigit) then none
  else some (l.foldl (fun n c => 10 * n + (c.toNat - 48)) 0)

/-- Modelled call `semver.satisfies(v, String.singleton (Char.ofNat 94) ++ "7.0.0")`
from `canReuseAST`: a `major.minor.patch` version whose components are
numeric and whose major component is 7. -/
def semverSatisfiesCaret700 (v : String) : Bool :=
  match splitOnDot v.data with
  | [a, b, c] => (parseNatSeg a == some 7) && (parseNatSeg b).isSome && (parseNatSeg c).isSome
  | _ => false

/-- `canReuseAST` from the source. -/
def canReuseAST (ast : AST) : Bool :=
  ast.type == "postcss" && semverSatisfiesCaret700 ast.version

/-- `parse` from the source: `none` when no config is active, else the
tagged AST wrapping the parsed code, with `postcss.parse` abstract. -/
def parse (cssParse : String → Program) (config : Option Config)
    (asset : AssetIn) : Option AST :=
  match config with
  | none => none
  | some _ => some { type := "postcss", version := "7.0.0", program := cssParse asset.code }

/-- The dependency object `transform` registers for a composes-from
declaration: `moduleSpecifier` and `loc.filePath` are both the import
path, the location starts at `decl.source.start` and ends on the same
line `importPath.length` columns later. -/
def mkComposesDep (decl : Decl) (importPath : String) : Dependency :=
  { moduleSpecifier := importPath
    loc :=
      { filePath := importPath
        start := decl.sourceStart
        endPos :=
          { line := decl.sourceStart.line
            column := decl.sourceStart.column + importPath.length } }
    isURL := false }

/-- The body of the `walkDecls` callback: run `FROM_IMPORT_RE.exec` on the
value; when the property is `composes` and the exec matched, register one
dependency per `string`-typed node that `postcss-value-parser`'s walk
(the parameter `vparse`) visits. -/
def declDeps (vparse : String → List VNode) (decl : Decl) : List Dependency :=
  match fromImportExec decl.value with
  | some importPath =>
    if decl.prop == "composes" then
      ((vparse decl.value).filter fun n => n.type == "string").map
        fun _ => mkComposesDep decl importPath
    else []
  | none => []

/-- All dependencies the full declaration walk registers, in walk order. -/
def walkComposes (vparse : String → List VNode) (prog : Program) : List Dependency :=
  prog.flatMap (declDeps vparse)

/-- The guarded walk: `code` is `null` when the AST is dirty, and the walk
runs iff `code == null || COMPOSES_RE.test(code)`. -/
def composedDeps (vparse : String → List VNode) (code? : Option String)
    (prog : Program) : List Dependency :=
  match code? with
  | none => walkComposes vparse prog
  | some c => if composesTest c then walkComposes vparse prog else []

/-- Hex digit as `JSON.stringify` prints it (lowercase). -/
def hexDigit (n : Nat) : Char :=
  if n < 10 then Char.ofNat (48 + n) else Char.ofNat (87 + n)

/-- How `JSON.stringify` escapes one character inside a string. -/
def jsonEscapeChar (c : Char) : String :=
  if c = '"' then "\\\""
  else if c = '\\' then "\\\\"
  else if c = '\x08' then "\\b"
  else if c = '\x0c' then "\\f"
  else if c = '\n' then "\\n"
  else if c = '\r' then "\\r"
  else if c = '\t' then "\\t"
  else if c.toNat < 0x20 then
    "\\u00" ++ String.mk [hexDigit (c.toNat / 16), hexDigit (c.toNat % 16)]
  else String.singleton c

/-- `JSON.stringify` of a string. -/
def jsonStringifyString (s : String) : String :=
  "\"" ++ String.join (s.data.map jsonEscapeChar) ++ "\""

/-- `JSON.stringify(m, null, 2)` for a flat string-to-string object in
insertion order. -/
def jsonStringifyMap2 (m : TokenMap) : String :=
  match m with
  | [] => "\x7b\x7d"
  | _ =>
    "\x7b\n" ++
      String.intercalate ",\n"
        (m.map fun kv => "  " ++ jsonStringifyString kv.1 ++ ": " ++ jsonStringifyString kv.2) ++
      "\n\x7d"

/-- The `require(...)` expression emitted for one dependency. -/
def requireExpr (d : Dependency) : String :=
  "require(" ++ jsonStringifyString d.moduleSpecifier ++ ")"

/-- The companion asset's content, from the token map and the already
URL-filtered dependency list: the bare export assignment when there are
no dependencies, else the `Object.assign` template literal with its exact
newlines and indentation. -/
def companionContent (map : TokenMap) (deps : List Dependency) : String :=
  let code := jsonStringifyMap2 map
  if deps.length > 0 then
    "\n          module.exports = Object.assign(\x7b\x7d, " ++
      String.intercalate ", " (deps.map requireExpr) ++ ", " ++ code ++ ");\n        "
  else
    "module.exports = " ++ code ++ ";"

/-- `transform` from the source, as a function of the external behaviors:
`vparse` (postcss-value-parser's walk), `nullErr` (the error `nullthrows`
throws on a missing AST), the config, the asset state, and `process` (the
plugin pipeline's outcome on the walked program).  Returns the asset
mutations performed and either the returned asset list or the propagated
error. -/
def transform {ε : Type} (vparse : String → List VNode) (nullErr : ε)
    (config : Option Config) (asset : AssetIn)
    (process : Program → Except ε ProcessOut) :
    AssetOut × Except ε (List TransformResult) :=
  let out0 : AssetOut :=
    { deps := asset.deps, includedFiles := [], astSets := [], meta := asset.meta }
  match config with
  | none => (out0, Except.ok [TransformResult.originalAsset])
  | some _ =>
    match asset.ast with
    | none => (out0, Except.error nullErr)
    | some ast =>
      let code? : Option String := if asset.astDirty then none else some asset.code
      let out1 : AssetOut := { out0 with deps := out0.deps ++ composedDeps vparse code? ast.program }
      match process ast.program with
      | Except.error e => (out1, Except.error e)
      | Except.ok pr =>
        let newAst : AST := { type := "postcss", version := "7.0.0", program := pr.root }
        let out2 : AssetOut :=
          { out1 with
            astSets := out1.astSets ++ [newAst]
            includedFiles := (pr.messages.filter fun m => m.type == "dependency").map fun m => m.file
            meta := match pr.cssModulesSet with | some m => some m | none => out1.meta }
        let assets : List TransformResult :=
          match out2.meta with
          | some map =>
            [TransformResult.originalAsset,
             TransformResult.newAsset "js" (asset.filePath ++ ".js")
               (companionContent map (out2.deps.filter fun d => !d.isURL))]
          | none => [TransformResult.originalAsset]
        (out2, Except.ok assets)

/-- The default scoped-name generator handed to postcss-modules, with the
content hash `md5FromString` (defined outside this package) abstract. -/
def generateScopedName (md5FromString : String → String)
    (name filename css : String) : String :=
  "_" ++ name ++ "_" ++ (md5FromString (filename ++ css)).take 5

/-- Strip one trailing quote character, the `["']$` alternative of the
loader's `replace(/^["']|["']$/g, '')`. -/
def stripTrailingQuote (l : List Char) : List Char :=
  match l.getLast? with
  | some c => if isQuote c then l.dropLast else l
  | none => l

/-- `composesPath.replace(/^["']|["']$/g, '')`: remove at most one
leading and one trailing quote character. -/
def stripQuotes (s : String) : String :=
  let l := match s.data with
    | c :: rest => if isQuote c then rest else c :: rest
    | [] => []
  ⟨stripTrailingQuote l⟩

/-- `path.resolve('/')` is the root marker `/` (POSIX); the loader strips
it with `startsWith` and `substr(root.length)`. -/
def stripRoot (p : String) : String :=
  match p.data with
  | c :: rest => if c = '/' then ⟨rest⟩ else p
  | [] => p

/-- The external capabilities `ParcelFileSystemLoader.fetch` closes over:
the pipeline resolver, Node's `path.dirname` and two-argument
`path.resolve`, the filesystem read, and css-modules-loader-core's
`core.load`, which receives a nested fetch callback and yields
`(exportTokens, injectableSource)` (or fails). -/
structure LoaderEnv where
  resolve : String → String → String
  pathDirname : String → String
  pathResolve : String → String → String
  readFile : String → String
  coreLoad : String → String → (String → String → Option TokenMap) → Option (TokenMap × String)

/-- One invocation of `ParcelFileSystemLoader.fetch` with `nested` as the
callback it hands to `core.load`: strip quotes, resolve, derive the
root-relative path and strip a leading root marker, read the file, load,
and return only the `exportTokens` component. -/
def fetchStep (env : LoaderEnv) (nested : String → String → Option TokenMap)
    (composesPath relativeTo : String) : Option TokenMap :=
  let importPath := stripQuotes composesPath
  let resolved := env.resolve relativeTo importPath
  let rootRelativePath := stripRoot (env.pathResolve (env.pathDirname relativeTo) resolved)
  (env.coreLoad (env.readFile resolved) rootRelativePath nested).map Prod.fst

/-- `fetch` of `ParcelFileSystemLoader`: ties the recursive knot by
passing itself (at one less fuel, modelling a possibly-divergent
transitive composes chain) as the nested resolver. -/
def fetch (env : LoaderEnv) : Nat → String → String → Option TokenMap
  | 0, _, _ => none
  | n + 1, composesPath, relativeTo => fetchStep env (fetch env n) composesPath relativeTo

/-- The loader's `finalSource` getter. -/
def loaderFinalSource : String := ""

/-- JS object lookup for an insertion-ordered assignment list: the last
assignment to a key wins. -/
def tmGet (m : TokenMap) (k : String) : Option String :=
  (m.reverse.find? fun kv => kv.1 == k).map fun kv => kv.2

/-- `Object.assign` over plain string-keyed objects, as an assignment
list: assignments of later arguments land later, so they override. -/
def jsObjectAssign (ms : List TokenMap) : TokenMap :=
  ms.flatten

/-- Modelled from the spec: the position where a declaration's value
starts in the file's text — the declaration's start shifted past the
property and the raw between-text (`prop ++ between ++ value`). -/
def declValueStart (d : Decl) : Pos :=
  { line := d.sourceStart.line
    column := d.sourceStart.column + d.prop.length + d.between.length }

/-- Dependencies on the asset after the guarded declaration walk. -/
def depsAfterWalk (vparse : String → List VNode) (asset : AssetIn) (ast : AST) :
    List Dependency :=
  asset.deps ++
    composedDeps vparse (if asset.astDirty then none else some asset.code) ast.program

/-- `asset.meta.cssModules` after the plugin run: the value `getJSON`
stored, else the previous value. -/
def metaAfter (asset : AssetIn) (pr : ProcessOut) : Option TokenMap :=
  match pr.cssModulesSet with
  | some m => some m
  | none => asset.meta

/-- The asset list `transform` returns after a successful plugin run. -/
def resultsAfterOk (vparse : String → List VNode) (asset : AssetIn) (ast : AST)
    (pr : ProcessOut) : List TransformResult :=
  match metaAfter asset pr with
  | some map =>
    [TransformResult.originalAsset,
     TransformResult.newAsset "js" (asset.filePath ++ ".js")
       (companionContent map ((depsAfterWalk vparse asset ast).filter fun d => !d.isURL))]
  | none => [TransformResult.originalAsset]

/-- A model of `postcss-value-parser`'s walk on
`foo from './a.css'`: two words, two spaces, one string. -/
def sampleVParse : String → List VNode :=
  fun _ => [⟨"word"⟩, ⟨"space"⟩, ⟨"word"⟩, ⟨"space"⟩, ⟨"string"⟩]

/-- The declaration `composes: foo from './a.css'` starting at line 1,
column 3. -/
def sampleDecl : Decl :=
  { prop := "composes", between := ": ", value := "foo from './a.css'"
    sourceStart := { line := 1, column := 3 } }

/-- A parsed tree holding just the sample declaration. -/
def sampleAST : AST :=
  { type := "postcss", version := "7.0.0", program := [sampleDecl] }

/-- An asset whose code has no composes text, with a clean (not dirty)
AST. -/
def cleanAsset : AssetIn :=
  { filePath := "/proj/src/a.css", code := "color: red", astDirty := false
    ast := some sampleAST, meta := none, deps := [] }

/-- The same asset with a dirty AST, so the walk cannot be skipped. -/
def dirtyAsset : AssetIn :=
  { cleanAsset with astDirty := true }

/-- A plugin run that succeeds without touching anything. -/
def okProcess {ε : Type} : Program → Except ε ProcessOut :=
  fun p => Except.ok { messages := [], root := p, cssModulesSet := none }

/-- A failing plugin run. -/
def errProcess : Program → Except String ProcessOut :=
  fun _ => Except.error "plugin exploded"

/-- A plugin run whose `getJSON` callback stored an empty token map. -/
def emptyMapProcess {ε : Type} : Program → Except ε ProcessOut :=
  fun p => Except.ok { messages := [], root := p, cssModulesSet := some [] }

/-- A plugin run whose `getJSON` callback stored the map `a -> _a_1`. -/
def tokenProcess {ε : Type} : Program → Except ε ProcessOut :=
  fun p => Except.ok { messages := [], root := p, cssModulesSet := some [("a", "_a_1")] }

/-- A loader environment whose derived path carries no root marker. -/
def baseLoaderEnv : LoaderEnv :=
  { resolve := fun _ s => s
    pathDirname := fun _ => ""
    pathResolve := fun _ _ => "x.css"
    readFile := fun _ => ""
    coreLoad := fun _ p _ => some ([("k", p)], "") }

/-- The same environment except the derived path carries a leading root
marker. -/
def rootedLoaderEnv : LoaderEnv :=
  { baseLoaderEnv with pathResolve := fun _ _ => "/x.css" }

theorem transform_ok_eq {ε : Type} (vparse : String → List VNode) (nullErr : ε)
    (cfg : Config) (asset : AssetIn) (process : Program → Except ε ProcessOut)
    (ast : AST) (pr : ProcessOut)
    (hast : asset.ast = some ast) (hp : process ast.program = Except.ok pr) :
    transform vparse nullErr (some cfg) asset process =
      ({ deps := depsAfterWalk vparse asset ast
         includedFiles := (pr.messages.filter fun m => m.type == "dependency").map fun m => m.file
         astSets := [{ type := "postcss", version := "7.0.0", program := pr.root }]
         meta := metaAfter asset pr },
       Except.ok (resultsAfterOk vparse asset ast pr)) := by
  simp only [transform, hast, hp, depsAfterWalk, metaAfter, resultsAfterOk, composedDeps,
    List.nil_append]

theorem transform_err_eq {ε : Type} (vparse : String → List VNode) (nullErr : ε)
    (cfg : Config) (asset : AssetIn) (process : Program → Except ε ProcessOut)
    (ast : AST) (e : ε)
    (hast : asset.ast = some ast) (hp : process ast.program = Except.error e) :
    transform vparse nullErr (some cfg) asset process =
      ({ deps := depsAfterWalk vparse asset ast
         includedFiles := []
         astSets := []
         meta := asset.meta },
       Except.error e) := by
  simp only [transform, hast, hp, depsAfterWalk, composedDeps, List.nil_append]

/-- C6: the default scoped-name generator returns exactly the underscore,
the class name, an underscore, and the first five characters of the
content hash of `filename ++ cssContent`; it is a pure deterministic
function, so two calls with identical arguments return identical
strings. -/
theorem generateScopedName_spec (md5FromString : String → String)
    (name filename css : String) :
    generateScopedName md5FromString name filename css =
      "_" ++ name ++ "_" ++ (md5FromString (filename ++ css)).take 5 ∧
    (∀ n f c, n = name → f = filename → c = css →
      generateScopedName md5FromString n f c =
        generateScopedName md5FromString name filename css) := by
  refine ⟨rfl, ?_⟩
  intro n f c hn hf hc
  rw [hn, hf, hc]

theorem generateScopedName_spec_witness :
    generateScopedName (fun _ => "0123456789abcdef") "a" "f.css" ".a" = "_a_01234" ∧
    generateScopedName (fun _ => "0123456789abcdef") "a" "f.css" ".a" =
      generateScopedName (fun _ => "0123456789abcdef") "a" "f.css" ".a" := by
  constructor
  · rw [(generateScopedName_spec (fun _ => "0123456789abcdef") "a" "f.css" ".a").1]
    decide
  · exact (generateScopedName_spec (fun _ => "0123456789abcdef") "a" "f.css" ".a").2
      "a" "f.css" ".a" rfl rfl rfl

/-- C10: with a config active, every AST `parse` returns has type
`postcss` and version `7.0.0`, every AST `transform` commits through
`setAST` has type `postcss` and version `7.0.0`, and `canReuseAST`
accepts every such AST. -/
theorem ast_roundtrip_canReuse {ε : Type} (cssParse : String → Program)
    (vparse : String → List VNode) (nullErr : ε) (cfg : Config)
    (asset : AssetIn) (process : Program → Except ε ProcessOut) :
    (∀ a, parse cssParse (some cfg) asset = some a →
      a.type = "postcss" ∧ a.version = "7.0.0" ∧ canReuseAST a = true) ∧
    (∀ a, a ∈ (transform vparse nullErr (some cfg) asset process).1.astSets →
      a.type = "postcss" ∧ a.version = "7.0.0" ∧ canReuseAST a = true) := by
  constructor
  · intro a ha
    simp only [parse, Option.some.injEq] at ha
    subst ha
    exact ⟨rfl, rfl, rfl⟩
  · intro a ha
    cases hast : asset.ast with
    | none =>
      simp only [transform, hast] at ha
      simp at ha
    | some ast =>
      cases hp : process ast.program with
      | error e =>
        rw [transform_err_eq vparse nullErr cfg asset process ast e hast hp] at ha
        simp at ha
      | ok pr =>
        rw [transform_ok_eq vparse nullErr cfg asset process ast pr hast hp] at ha
        simp at ha
        subst ha
        exact ⟨rfl, rfl, rfl⟩

theorem ast_roundtrip_canReuse_witness :
    canReuseAST { type := "postcss", version := "7.0.0", program := ([] : Program) } = true :=
  ((ast_roundtrip_canReuse (fun _ => []) sampleVParse "e" ⟨false⟩ cleanAsset okProcess).1
    { type := "postcss", version := "7.0.0", program := [] } rfl).2.2

/-- C9: when the plugin pipeline fails, `transform` propagates the very
error value unchanged, commits no AST, registers no included file and
keeps the metadata, so no companion asset can be produced, and it does
not retry. -/
theorem plugin_error_atomicity {ε : Type} (vparse : String → List VNode)
    (nullErr : ε) (cfg : Config) (asset : AssetIn)
    (process : Program → Except ε ProcessOut) (ast : AST) (e : ε)
    (hast : asset.ast = some ast) (hp : process ast.program = Except.error e) :
    (transform vparse nullErr (some cfg) asset process).2 = Except.error e ∧
    (transform vparse nullErr (some cfg) asset process).1.astSets = [] ∧
    (transform vparse nullErr (some cfg) asset process).1.includedFiles = [] ∧
    (transform vparse nullErr (some cfg) asset process).1.meta = asset.meta := by
  rw [transform_err_eq vparse nullErr cfg asset process ast e hast hp]
  exact ⟨rfl, rfl, rfl, rfl⟩

theorem plugin_error_atomicity_witness :
    (transform sampleVParse "null" (some ⟨false⟩) cleanAsset errProcess).2 =
      Except.error "plugin exploded" ∧
    (transform sampleVParse "null" (some ⟨false⟩) cleanAsset errProcess).1.astSets = [] ∧
    (transform sampleVParse "null" (some ⟨false⟩) cleanAsset errProcess).1.includedFiles = [] ∧
    (transform sampleVParse "null" (some ⟨false⟩) cleanAsset errProcess).1.meta = none :=
  plugin_error_atomicity sampleVParse "null" ⟨false⟩ cleanAsset errProcess sampleAST
    "plugin exploded" rfl rfl

/-- C8: when the AST is clean and the code fails the conservative
`COMPOSES_RE` test, the declaration walk is skipped and no composes
dependency is registered; when the AST is dirty, the code is treated as
absent and the full walk always runs. -/
theorem composes_fast_path {ε : Type} (vparse : String → List VNode)
    (nullErr : ε) (cfg : Config) (asset : AssetIn)
    (process : Program → Except ε ProcessOut) (ast : AST)
    (hast : asset.ast = some ast) :
    (asset.astDirty = false → composesTest asset.code = false →
      (transform vparse nullErr (some cfg) asset process).1.deps = asset.deps) ∧
    (asset.astDirty = true →
      (transform vparse nullErr (some cfg) asset process).1.deps =
        asset.deps ++ walkComposes vparse ast.program) := by
  have hdeps : (transform vparse nullErr (some cfg) asset process).1.deps =
      depsAfterWalk vparse asset ast := by
    cases hp : process ast.program with
    | error e => rw [transform_err_eq vparse nullErr cfg asset process ast e hast hp]
    | ok pr => rw [transform_ok_eq vparse nullErr cfg asset process ast pr hast hp]
  constructor
  · intro hdirty htest
    rw [hdeps]
    simp [depsAfterWalk, composedDeps, hdirty, htest]
  · intro hdirty
    rw [hdeps]
    simp [depsAfterWalk, composedDeps, hdirty]

theorem composes_fast_path_witness :
    (transform sampleVParse "null" (some ⟨false⟩) cleanAsset okProcess).1.deps = [] ∧
    (transform sampleVParse "null" (some ⟨false⟩) dirtyAsset okProcess).1.deps =
      [] ++ walkComposes sampleVParse sampleAST.program :=
  ⟨(composes_fast_path sampleVParse "null" ⟨false⟩ cleanAsset okProcess sampleAST rfl).1
      rfl (by decide),
   (composes_fast_path sampleVParse "null" ⟨false⟩ dirtyAsset okProcess sampleAST rfl).2 rfl⟩

/-- C1: for a declaration with property `composes`: when the value
matches the from-clause pattern capturing `importPath` and the value's
token walk visits exactly one string token, exactly one dependency is
registered, with the captured path as moduleSpecifier; when the value has
no from-clause match, zero dependencies are registered; with `k` string
tokens, `k` dependencies are registered, all carrying the identical
moduleSpecifier.  `declDeps` is the `walkDecls` callback of `transform`,
and on a one-declaration tree the walk registers exactly `declDeps`. -/
theorem composes_dependency_counts (vparse : String → List VNode) (decl : Decl)
    (hprop : decl.prop = "composes") :
    (∀ importPath, fromImportExec decl.value = some importPath →
      ((vparse decl.value).filter fun n => n.type == "string").length = 1 →
      (declDeps vparse decl).map (fun d => d.moduleSpecifier) = [importPath]) ∧
    (fromImportExec decl.value = none → declDeps vparse decl = []) ∧
    (∀ importPath k, fromImportExec decl.value = some importPath →
      ((vparse decl.value).filter fun n => n.type == "string").length = k →
      (declDeps vparse decl).length = k ∧
      ∀ d ∈ declDeps vparse decl, d.moduleSpecifier = importPath) ∧
    walkComposes vparse [decl] = declDeps vparse decl := by
  refine ⟨?_, ?_, ?_, ?_⟩
  · intro p hexec hone
    obtain ⟨n, hn⟩ := List.length_eq_one.mp hone
    simp [declDeps, hexec, hprop, hn, mkComposesDep]
  · intro hexec
    simp [declDeps, hexec]
  · intro p k hexec hk
    constructor
    · simp [declDeps, hexec, hprop, hk]
    · intro d hd
      simp only [declDeps, hexec, hprop, beq_self_eq_true, if_true, List.mem_map] at hd
      obtain ⟨n, _, rfl⟩ := hd
      rfl
  · simp [walkComposes]

theorem composes_dependency_counts_witness :
    (declDeps sampleVParse sampleDecl).map (fun d => d.moduleSpecifier) = ["./a.css"] ∧
    declDeps sampleVParse { sampleDecl with value := "bar" } = [] :=
  ⟨(composes_dependency_counts sampleVParse sampleDecl rfl).1 "./a.css"
      (by decide) (by decide),
   (composes_dependency_counts sampleVParse { sampleDecl with value := "bar" } rfl).2.1
      (by decide)⟩

/-- C4 counterexample: on `composes: foo from './a.css'` starting at line
1 column 3, the registered location starts at the declaration's start
(column 3), not at the value's start (column 13 = 3 + length of
`composes` + length of `: `). -/
theorem composes_loc_start_not_value_start :
    (declDeps sampleVParse sampleDecl).map (fun d => d.loc.start) =
      [{ line := 1, column := 3 }] ∧
    declValueStart sampleDecl = { line := 1, column := 13 } ∧
    ({ line := 1, column := 3 } : Pos) ≠ { line := 1, column := 13 } :=
  ⟨by decide, by decide, by decide⟩

/-- C4 amended: every dependency registered for a composes-from
declaration carries a location starting at the declaration's start
(`decl.source.start`, not the value's start) and ending on the same line
at the declaration start column plus the import path's length. -/
theorem composes_loc_spans_decl_start (vparse : String → List VNode)
    (decl : Decl) (importPath : String)
    (hexec : fromImportExec decl.value = some importPath) :
    ∀ d ∈ declDeps vparse decl,
      d.loc.start = decl.sourceStart ∧
      d.loc.endPos = { line := decl.sourceStart.line
                       column := decl.sourceStart.column + importPath.length } := by
  intro d hd
  simp only [declDeps, hexec] at hd
  split at hd
  · simp only [List.mem_map] at hd
    obtain ⟨n, _, rfl⟩ := hd
    exact ⟨rfl, rfl⟩
  · simp at hd

theorem composes_loc_spans_decl_start_witness :
    (mkComposesDep sampleDecl "./a.css").loc.start = sampleDecl.sourceStart ∧
    (mkComposesDep sampleDecl "./a.css").loc.endPos =
      { line := sampleDecl.sourceStart.line
        column := sampleDecl.sourceStart.column + "./a.css".length } :=
  composes_loc_spans_decl_start sampleVParse sampleDecl "./a.css" (by decide)
    (mkComposesDep sampleDecl "./a.css") (by decide)

/-- C5 (code defect): transforming the file `/proj/src/a.css` whose tree
holds `composes: foo from './a.css'` registers a dependency whose
`loc.filePath` is the import specifier `./a.css`, not the path of the
file being transformed, so the recorded location does not identify the
originating file. -/
theorem composes_loc_filePath_is_specifier :
    dirtyAsset.filePath = "/proj/src/a.css" ∧
    (transform sampleVParse "null" (some ⟨false⟩) dirtyAsset okProcess).1.deps.map
      (fun d => d.loc.filePath) = ["./a.css"] ∧
    "./a.css" ≠ "/proj/src/a.css" :=
  ⟨rfl, by decide, by decide⟩

theorem stripQuotes_wrap (s : String) : stripQuotes ("\"" ++ s ++ "\"") = s := by
  obtain ⟨l⟩ := s
  have hdata : ("\"" ++ String.mk l ++ "\"").data = '"' :: (l ++ ['"']) := by
    simp [String.data_append]
  simp [stripQuotes, hdata, stripTrailingQuote, List.getLast?_concat,
    List.dropLast_concat, isQuote]

theorem stripQuotes_id (s : String)
    (h1 : (s.data.head?.all fun c => !isQuote c) = true)
    (h2 : (s.data.getLast?.all fun c => !isQuote c) = true) :
    stripQuotes s = s := by
  obtain ⟨l⟩ := s
  cases l with
  | nil => rfl
  | cons c rest =>
    have hc : isQuote c = false := by simpa using h1
    simp only [stripQuotes, hc, Bool.false_eq_true, if_false, stripTrailingQuote]
    cases hg : (c :: rest).getLast? with
    | none => rfl
    | some x =>
      have hx : isQuote x = false := by
        rw [hg] at h2; simpa using h2
      simp [hx]

theorem stripRoot_slash (d : String)
    (hd : (d.data.head?.all fun c => !(c = '/')) = true) :
    stripRoot ("/" ++ d) = stripRoot d := by
  obtain ⟨l⟩ := d
  have h1 : stripRoot ("/" ++ String.mk l) = String.mk l := by
    have hdata : ("/" ++ String.mk l).data = '/' :: l := by
      simp [String.data_append]
    simp [stripRoot, hdata]
  rw [h1]
  cases l with
  | nil => rfl
  | cons c rest =>
    have hc : (c = '/') = False := by
      simp only [List.head?, Option.all_some] at hd
      simpa using hd
    simp [stripRoot, hc]

theorem companionContent_nil (map : TokenMap) :
    companionContent map [] = "module.exports = " ++ jsonStringifyMap2 map ++ ";" := rfl

theorem companionContent_cons (map : TokenMap) (d : Dependency) (ds : List Dependency) :
    companionContent map (d :: ds) =
      "\n          module.exports = Object.assign(\x7b\x7d, " ++
        String.intercalate ", " ((d :: ds).map requireExpr) ++ ", " ++
        jsonStringifyMap2 map ++ ");\n        " := by
  simp [companionContent]

theorem tmGet_assign_last (ms : List TokenMap) (map : TokenMap) (k v : String)
    (hv : tmGet map k = some v) :
    tmGet (jsObjectAssign (ms ++ [map])) k = some v := by
  simp only [tmGet, jsObjectAssign] at hv ⊢
  obtain ⟨kv, hkv, hv2⟩ := Option.map_eq_some'.mp hv
  rw [List.flatten_append, List.reverse_append]
  simp only [List.flatten_cons, List.flatten_nil, List.append_nil]
  rw [List.find?_append, hkv]
  simp [hv2]

/-- C3 counterexample: when the token map stored on the asset is the
empty mapping (a truthy empty object in the source), `transform` still
emits the companion script asset, so its output is not just the original
asset. -/
theorem companion_emitted_for_empty_map :
    (transform sampleVParse "null" (some ⟨false⟩) cleanAsset emptyMapProcess).1.meta =
      some [] ∧
    (transform sampleVParse "null" (some ⟨false⟩) cleanAsset emptyMapProcess).2 =
      Except.ok [TransformResult.originalAsset,
        TransformResult.newAsset "js" "/proj/src/a.css.js" "module.exports = \x7b\x7d;"] ∧
    [TransformResult.originalAsset,
        TransformResult.newAsset "js" "/proj/src/a.css.js" "module.exports = \x7b\x7d;"] ≠
      [TransformResult.originalAsset] :=
  ⟨rfl, rfl, by decide⟩

/-- C3 amended: after a successful plugin run the companion script asset
(path = original path + `.js`) is emitted iff a token map is stored on
the asset at all — even an empty one counts, since the check is
truthiness, not non-emptiness; when no map is stored, `transform` returns
only the original asset. -/
theorem companion_iff_token_map_present {ε : Type} (vparse : String → List VNode)
    (nullErr : ε) (cfg : Config) (asset : AssetIn)
    (process : Program → Except ε ProcessOut) (ast : AST) (pr : ProcessOut)
    (hast : asset.ast = some ast) (hp : process ast.program = Except.ok pr) :
    ((∃ content, (transform vparse nullErr (some cfg) asset process).2 =
        Except.ok [TransformResult.originalAsset,
          TransformResult.newAsset "js" (asset.filePath ++ ".js") content]) ↔
      (metaAfter asset pr).isSome = true) ∧
    (metaAfter asset pr = none →
      (transform vparse nullErr (some cfg) asset process).2 =
        Except.ok [TransformResult.originalAsset]) := by
  rw [transform_ok_eq vparse nullErr cfg asset process ast pr hast hp]
  constructor
  · cases hm : metaAfter asset pr with
    | none => simp [resultsAfterOk, hm]
    | some map => simp [resultsAfterOk, hm]
  · intro hm
    simp [resultsAfterOk, hm]

theorem companion_iff_token_map_present_witness :
    ∃ content, (transform sampleVParse "null" (some ⟨false⟩) cleanAsset emptyMapProcess).2 =
      Except.ok [TransformResult.originalAsset,
        TransformResult.newAsset "js" ("/proj/src/a.css" ++ ".js") content] :=
  (companion_iff_token_map_present sampleVParse "null" ⟨false⟩ cleanAsset emptyMapProcess
      sampleAST { messages := [], root := sampleAST.program, cssModulesSet := some [] }
      rfl rfl).1.mpr rfl

/-- C2: with a token map stored on the asset, the companion content is
exactly `module.exports = ` followed by the 2-space-indented JSON of the
map and a semicolon when no qualifying (non-URL) dependency exists; with
at least one qualifying dependency it is the `Object.assign` template
merging each dependency's required export map in declaration order with
the local JSON last, and under `Object.assign` semantics the local map's
keys override same-named keys of earlier (composed) maps; for the map
a -> _a_1 with no dependencies the content is the exact literal. -/
theorem companion_content_spec {ε : Type} (vparse : String → List VNode)
    (nullErr : ε) (cfg : Config) (asset : AssetIn)
    (process : Program → Except ε ProcessOut) (ast : AST) (pr : ProcessOut)
    (map : TokenMap)
    (hast : asset.ast = some ast) (hp : process ast.program = Except.ok pr)
    (hm : metaAfter asset pr = some map) :
    ((depsAfterWalk vparse asset ast).filter (fun d => !d.isURL) = [] →
      (transform vparse nullErr (some cfg) asset process).2 =
        Except.ok [TransformResult.originalAsset,
          TransformResult.newAsset "js" (asset.filePath ++ ".js")
            ("module.exports = " ++ jsonStringifyMap2 map ++ ";")]) ∧
    (∀ qdeps, (depsAfterWalk vparse asset ast).filter (fun d => !d.isURL) = qdeps →
      qdeps ≠ [] →
      (transform vparse nullErr (some cfg) asset process).2 =
        Except.ok [TransformResult.originalAsset,
          TransformResult.newAsset "js" (asset.filePath ++ ".js")
            ("\n          module.exports = Object.assign(\x7b\x7d, " ++
              String.intercalate ", " (qdeps.map requireExpr) ++ ", " ++
              jsonStringifyMap2 map ++ ");\n        ")]) ∧
    (∀ (ms : List TokenMap) (k v : String), tmGet map k = some v →
      tmGet (jsObjectAssign (ms ++ [map])) k = some v) ∧
    companionContent [("a", "_a_1")] [] =
      "module.exports = \x7b\n  \"a\": \"_a_1\"\n\x7d;" := by
  rw [transform_ok_eq vparse nullErr cfg asset process ast pr hast hp]
  refine ⟨?_, ?_, fun ms k v hv => tmGet_assign_last ms map k v hv, by decide⟩
  · intro hq
    simp [resultsAfterOk, hm, hq, companionContent_nil]
  · intro qdeps hq hne
    cases qdeps with
    | nil => exact absurd rfl hne
    | cons d ds => simp [resultsAfterOk, hm, hq, companionContent_cons]

theorem companion_content_spec_witness :
    (transform sampleVParse "null" (some ⟨false⟩) cleanAsset tokenProcess).2 =
      Except.ok [TransformResult.originalAsset,
        TransformResult.newAsset "js" ("/proj/src/a.css" ++ ".js")
          ("module.exports = " ++ jsonStringifyMap2 [("a", "_a_1")] ++ ";")] :=
  (companion_content_spec sampleVParse "null" ⟨false⟩ cleanAsset tokenProcess sampleAST
      { messages := [], root := sampleAST.program, cssModulesSet := some [("a", "_a_1")] }
      [("a", "_a_1")] rfl rfl rfl).1 (by decide)

/-- C7: `fetch` strips the surrounding quote characters from the raw
specifier before resolving, so a quoted and an unquoted specifier behave
identically; each fetch level hands `fetch` itself to `core.load` as the
nested resolver and returns only the `exportTokens` component of its
result; the returned export tokens are identical whether or not the
derived root-relative path carries a leading filesystem root marker (the
marker is stripped); and the loader's `finalSource` is always empty. -/
theorem loader_fetch_spec :
    (∀ (env : LoaderEnv) (nested : String → String → Option TokenMap) (s rt : String),
      (s.data.head?.all fun c => !isQuote c) = true →
      (s.data.getLast?.all fun c => !isQuote c) = true →
      fetchStep env nested ("\"" ++ s ++ "\"") rt = fetchStep env nested s rt) ∧
    (∀ (env : LoaderEnv) (n : Nat) (cp rt : String),
      fetch env (n + 1) cp rt = fetchStep env (fetch env n) cp rt) ∧
    (∀ (env : LoaderEnv) (nested : String → String → Option TokenMap) (cp rt : String),
      fetchStep env nested cp rt =
        (env.coreLoad (env.readFile (env.resolve rt (stripQuotes cp)))
          (stripRoot (env.pathResolve (env.pathDirname rt) (env.resolve rt (stripQuotes cp))))
          nested).map Prod.fst) ∧
    (∀ (env env' : LoaderEnv) (nested : String → String → Option TokenMap)
        (cp rt d : String),
      env'.resolve = env.resolve → env'.pathDirname = env.pathDirname →
      env'.readFile = env.readFile → env'.coreLoad = env.coreLoad →
      env.pathResolve (env.pathDirname rt) (env.resolve rt (stripQuotes cp)) = d →
      env'.pathResolve (env'.pathDirname rt) (env'.resolve rt (stripQuotes cp)) = "/" ++ d →
      (d.data.head?.all fun c => !(c = '/')) = true →
      fetchStep env nested cp rt = fetchStep env' nested cp rt) ∧
    loaderFinalSource = "" := by
  refine ⟨?_, ?_, ?_, ?_, rfl⟩
  · intro env nested s rt h1 h2
    simp only [fetchStep, stripQuotes_wrap s, stripQuotes_id s h1 h2]
  · intro env n cp rt
    rfl
  · intro env nested cp rt
    rfl
  · intro env env' nested cp rt d hres hdir hread hload hd hd' hhead
    rw [hres, hdir] at hd'
    simp only [fetchStep, hres, hdir, hread, hload, hd, hd', stripRoot_slash d hhead]

theorem loader_fetch_spec_witness :
    fetchStep baseLoaderEnv (fun _ _ => none) "\"./b.css\"" "/proj/src/a.css" =
      fetchStep baseLoaderEnv (fun _ _ => none) "./b.css" "/proj/src/a.css" ∧
    fetchStep baseLoaderEnv (fun _ _ => none) "./b.css" "/proj/src/a.css" =
      fetchStep rootedLoaderEnv (fun _ _ => none) "./b.css" "/proj/src/a.css" :=
  ⟨loader_fetch_spec.1 baseLoaderEnv (fun _ _ => none) "./b.css" "/proj/src/a.css"
      (by decide) (by decide),
   loader_fetch_spec.2.2.2.1 baseLoaderEnv rootedLoaderEnv (fun _ _ => none)
      "./b.css" "/proj/src/a.css" "x.css" rfl rfl rfl rfl rfl (by decide) (by decide)⟩
